import Mathlib

/-!
Shallow embedding of the projection & navigation engine of the
`webglobeview` repository (files `globeview.js` and the unnamed demo
variants).  Pure numeric code is translated over the exact reals `ℝ`;
GLSL `discard` outcomes are translated as `Option.none`.  The most
complete demo variant (the one with aspect-ratio handling, view-height
uniform and touch support) is the one embedded for the camera state and
navigation controller; the geometry-kernel shader functions are
identical across variants.
-/

namespace GlobeView

noncomputable section

open Real
open Matrix
open scoped Classical

/-- A 2D screen coordinate, in "radians at screen center" units
(GLSL `vec2 screen_xy`). -/
structure Vec2 where
  x : ℝ
  y : ℝ

/-- A 3D point (GLSL `vec3`). -/
structure Vec3 where
  x : ℝ
  y : ℝ
  z : ℝ

/-- Squared Euclidean magnitude of a `Vec3`. -/
def Vec3.normSq (v : Vec3) : ℝ := v.x ^ 2 + v.y ^ 2 + v.z ^ 2

/-- Embeds GLSL `sphereFromOrthographic`:
`z = 1 - x*x - y*y; if (z < 0) discard; z = sqrt(z); return vec3(x,y,z)`. -/
def sphereFromOrthographic (p : Vec2) : Option Vec3 :=
  let z := 1 - p.x * p.x - p.y * p.y
  if z < 0 then none
  else some ⟨p.x, p.y, Real.sqrt z⟩

/-- Quadratic coefficient `qa = dot(screenXy, screenXy) + vh2` from
`sphereFromPerspective`. -/
def perspQa (vh : ℝ) (p : Vec2) : ℝ := p.x * p.x + p.y * p.y + vh * vh

/-- Quadratic coefficient `qb = -2.0 * (vh2 + view_height)` from
`sphereFromPerspective`. -/
def perspQb (vh : ℝ) : ℝ := -2 * (vh * vh + vh)

/-- Quadratic coefficient `qc = vh2 + 2.0 * view_height` from
`sphereFromPerspective`. -/
def perspQc (vh : ℝ) : ℝ := vh * vh + 2 * vh

/-- The `determinant = qb*qb - 4.0*qa*qc` (discriminant) from
`sphereFromPerspective`. -/
def perspDeterminant (vh : ℝ) (p : Vec2) : ℝ :=
  perspQb vh * perspQb vh - 4 * perspQa vh p * perspQc vh

/-- The near root `t = (-qb - sqrt(determinant))/(2.0*qa)` chosen by
`sphereFromPerspective`. -/
def perspNearT (vh : ℝ) (p : Vec2) : ℝ :=
  (-perspQb vh - Real.sqrt (perspDeterminant vh p)) / (2 * perspQa vh p)

/-- The other (far) quadratic root `(-qb + sqrt(determinant))/(2.0*qa)`,
which the shader never uses; defined for comparison with the near root. -/
def perspFarT (vh : ℝ) (p : Vec2) : ℝ :=
  (-perspQb vh + Real.sqrt (perspDeterminant vh p)) / (2 * perspQa vh p)

/-- The ray point `vec3(0, 0, view_height + 1.0) + t * vec3(screenXy, -view_height)`
returned by `sphereFromPerspective`. -/
def perspRayPoint (vh : ℝ) (p : Vec2) (t : ℝ) : Vec3 :=
  ⟨0 + t * p.x, 0 + t * p.y, (vh + 1) + t * (-vh)⟩

/-- Embeds GLSL `sphereFromPerspective`: quadratic ray-cast against the
unit sphere from an observer at altitude `view_height` above the surface;
`if (determinant < 0.0) discard`, otherwise the near-root intersection. -/
def sphereFromPerspective (vh : ℝ) (p : Vec2) : Option Vec3 :=
  if perspDeterminant vh p < 0 then none
  else some (perspRayPoint vh p (perspNearT vh p))

/-- The shader constant `const float PI = 3.14159265359`. -/
def glslPI : ℝ := 3.14159265359

/-- The fragment-shader quantity
`radians_per_screen_pixel = dFdx(screen_xy.x)`, evaluated analytically:
`screen_xy.x` is the linear interpolation of
`aspect.x * SCREEN_COORD.x / zoom` across the viewport (vertex shader:
`aspect = vec2(aspect_ratio, 1.0)`, replaced by `vec2(1.0, 1.0/aspect_ratio)`
when `aspect_ratio < 1.0`), so it spans `2 * aspect.x / zoom` over
`viewportWidth` pixels and its per-pixel x-derivative is that span divided
by the width. -/
def radiansPerScreenPixel (aspect zoom viewportWidth : ℝ) : ℝ :=
  (if aspect < 1 then 1 else aspect) * 2 / zoom / viewportWidth

/-- The fragment-shader LOD computation:
`radians_per_image_pixel = PI / float(textureSize(world_texture, 0).y);`
`lod = log2(radians_per_screen_pixel/radians_per_image_pixel) - 0.0;`. -/
def lodCode (aspect zoom viewportWidth imageHeight : ℝ) : ℝ :=
  Real.logb 2
    (radiansPerScreenPixel aspect zoom viewportWidth / (glslPI / imageHeight))
    - 0.0

/-- The projection indices shared between JavaScript and GLSL
(`EQUIRECTANGULAR = 1; ORTHOGRAPHIC = 2; PERSPECTIVE = 3`). -/
inductive Projection where
  | EQUIRECTANGULAR
  | ORTHOGRAPHIC
  | PERSPECTIVE
deriving DecidableEq

/-- Embeds `globeview.projectionChanged(proj)`: the selected projection,
paired with whether the `height_input` element ends up enabled
(the code calls `removeAttribute("disabled")` exactly in the `else`
branch and `setAttribute("disabled", "true")` in the two named branches). -/
def projectionChanged (proj : String) : Projection × Bool :=
  if proj = "equirectangular" then (Projection.EQUIRECTANGULAR, false)
  else if proj = "orthographic" then (Projection.ORTHOGRAPHIC, false)
  else (Projection.PERSPECTIVE, true)

/-- The constant `radiusKm = 6371.0`. -/
def radiusKm : ℝ := 6371.0

/-- The mutable module state of the navigation controller: the
module-level `let` variables of the IIFE, plus the closure variables
`dragX`, `dragY`, `is_dragging` of `globeview.start`, plus the canvas
pixel size the handlers read. -/
@[ext]
structure State where
  zoom : ℝ
  projection : Projection
  rotation : Matrix (Fin 3) (Fin 3) ℝ
  centerLongitude : ℝ
  centerLatitude : ℝ
  aspect : ℝ
  viewHeight : ℝ
  width : ℝ
  height : ℝ
  dragX : ℝ
  dragY : ℝ
  isDragging : Bool

/-- The rotation matrix written by `pan`, laid out here with the rows of
the JavaScript array literal:
`cy = cos(-centerLongitude); sy = sin(-centerLongitude);`
`cx = cos(centerLatitude); sx = sin(centerLatitude);`
`rotation = [cy,0,sy, sx*sy,cx,-sx*cy, -cx*sy,sx,cx*cy]`. -/
def rotationFromAngles (lon lat : ℝ) : Matrix (Fin 3) (Fin 3) ℝ :=
  let cy := Real.cos (-lon)
  let sy := Real.sin (-lon)
  let cx := Real.cos lat
  let sx := Real.sin lat
  !![cy, 0, sy;
     sx * sy, cx, -sx * cy;
     -cx * sy, sx, cx * cy]

/-- The initial values of the module variables: `zoom = 1.0`,
`projection = ORTHOGRAPHIC`, identity `rotation`, zero center angles,
`aspect_ratio = 1.0`, `view_height = 10000.0 / radiusKm`,
`dragX = dragY = 0`, not dragging.  The initial canvas pixel size comes
from the hosting page, so it is a parameter. -/
def initState (w h : ℝ) : State where
  zoom := 1
  projection := Projection.ORTHOGRAPHIC
  rotation := 1
  centerLongitude := 0
  centerLatitude := 0
  aspect := 1
  viewHeight := 10000 / radiusKm
  width := w
  height := h
  dragX := 0
  dragY := 0
  isDragging := false

/-- The `drag_scale` computed by `pan`:
`let drag_scale = 2.0 / canvas.width / zoom;`
`if (aspect_ratio > 1) { drag_scale = 2.0 / canvas.height / zoom; }`. -/
def dragScale (s : State) : ℝ :=
  if 1 < s.aspect then 2 / s.height / s.zoom else 2 / s.width / s.zoom

/-- Embeds the `pan(x, y)` closure of `globeview.start`: delta against
the `dragX`/`dragY` anchor; early return on a zero delta; anchor update;
early return on a delta component exceeding 30; then the angular update
with `centerLatitude` clamped to `[-π/2, π/2]` via `Math.min`/`Math.max`
and `rotation` rebuilt from the two center angles. -/
def pan (x y : ℝ) (s : State) : State :=
  let dx := x - s.dragX
  let dy := y - s.dragY
  if dx = 0 ∧ dy = 0 then s
  else
    let s1 := { s with dragX := x, dragY := y }
    if 30 < |dx| then s1
    else if 30 < |dy| then s1
    else
      let lon := s.centerLongitude + (-dx * dragScale s)
      let lat0 := s.centerLatitude + dy * dragScale s
      let lat := max (min lat0 (0.5 * Real.pi)) (-(0.5 * Real.pi))
      { s1 with
          centerLongitude := lon
          centerLatitude := lat
          rotation := rotationFromAngles lon lat }

/-- Embeds `scrollZoom(event)`:
`delta = Math.max(-1, Math.min(1, wheelDelta))`; multiply `zoom` by
`factor = 1.10` when `delta > 0`, by `1.0 / factor` otherwise. -/
def scrollZoom (wheelDelta : ℝ) (s : State) : State :=
  let delta := max (-1) (min 1 wheelDelta)
  if 0 < delta then { s with zoom := s.zoom * 1.10 }
  else { s with zoom := s.zoom * (1.0 / 1.10) }

/-- Embeds `resize(canvas)`: floor the client size, and when it differs
from the stored canvas size, store it and recompute
`aspect_ratio = displayWidth/displayHeight`. -/
def resizeCanvas (clientWidth clientHeight : ℝ) (s : State) : State :=
  let displayWidth : ℝ := (⌊clientWidth⌋ : ℤ)
  let displayHeight : ℝ := (⌊clientHeight⌋ : ℤ)
  if s.width ≠ displayWidth ∨ s.height ≠ displayHeight then
    { s with
        width := displayWidth
        height := displayHeight
        aspect := displayWidth / displayHeight }
  else s

/-- The input events the controller reacts to. -/
inductive Op where
  | mousedown (x y : ℝ)
  | mousemove (x y : ℝ)
  | mouseup
  | mouseout
  | wheel (wheelDelta : ℝ)
  | winResize (clientWidth clientHeight : ℝ)
  | setProjection (proj : String)
  | setAltitude (kilometers : ℝ)

/-- One event-handler invocation, following the listeners registered in
`globeview.start` and `globeview.projectionChanged`: `mousedown` arms the
drag session and records the anchor; `mousemove` pans only while
dragging; `mouseup`/`mouseout` disarm; wheel events zoom; frame resize
updates the canvas size; the projection selector switches `projection`;
the altitude box sets `view_height = heightbox.value / radiusKm`. -/
def step (op : Op) (s : State) : State :=
  match op with
  | Op.mousedown x y => { s with isDragging := true, dragX := x, dragY := y }
  | Op.mousemove x y => if s.isDragging then pan x y s else s
  | Op.mouseup => { s with isDragging := false }
  | Op.mouseout => { s with isDragging := false }
  | Op.wheel d => scrollZoom d s
  | Op.winResize cw ch => resizeCanvas cw ch s
  | Op.setProjection proj => { s with projection := (projectionChanged proj).1 }
  | Op.setAltitude km => { s with viewHeight := km / radiusKm }

/-- Run a sequence of input events from a starting state. -/
def runOps (ops : List Op) (s : State) : State :=
  ops.foldl (fun t op => step op t) s

/-! ## Helper lemmas -/

lemma quad_root_near (a b c : ℝ) (ha : a ≠ 0) (hs : Real.sqrt (b ^ 2 - 4 * a * c) ^ 2 = b ^ 2 - 4 * a * c) :
    a * ((-b - Real.sqrt (b ^ 2 - 4 * a * c)) / (2 * a)) ^ 2 +
      b * ((-b - Real.sqrt (b ^ 2 - 4 * a * c)) / (2 * a)) + c = 0 := by
  field_simp
  linear_combination 2 * a ^ 2 * hs

lemma quad_root_far (a b c : ℝ) (ha : a ≠ 0) (hs : Real.sqrt (b ^ 2 - 4 * a * c) ^ 2 = b ^ 2 - 4 * a * c) :
    a * ((-b + Real.sqrt (b ^ 2 - 4 * a * c)) / (2 * a)) ^ 2 +
      b * ((-b + Real.sqrt (b ^ 2 - 4 * a * c)) / (2 * a)) + c = 0 := by
  field_simp
  linear_combination 2 * a ^ 2 * hs

/-! ## C6: orthographic deprojection -/

/-- C6: under ORTHOGRAPHIC, deprojection discards exactly when
`x² + y² > 1`; otherwise it returns `(x, y, √(1 − x² − y²))`, whose
squared magnitude is exactly 1 in real arithmetic and whose
z-coordinate is nonnegative. -/
theorem C6_orthographic_deprojection (p : Vec2) :
    (sphereFromOrthographic p = none ↔ 1 < p.x ^ 2 + p.y ^ 2) ∧
    (p.x ^ 2 + p.y ^ 2 ≤ 1 →
      sphereFromOrthographic p =
        some ⟨p.x, p.y, Real.sqrt (1 - p.x * p.x - p.y * p.y)⟩ ∧
      (Vec3.mk p.x p.y (Real.sqrt (1 - p.x * p.x - p.y * p.y))).normSq = 1 ∧
      0 ≤ Real.sqrt (1 - p.x * p.x - p.y * p.y)) := by
  constructor
  · constructor
    · intro hnone
      by_cases hlt : 1 - p.x * p.x - p.y * p.y < 0
      · nlinarith
      · unfold sphereFromOrthographic at hnone
        rw [if_neg hlt] at hnone
        exact absurd hnone (by simp)
    · intro hgt
      unfold sphereFromOrthographic
      rw [if_pos (by nlinarith)]
  · intro hle
    have hz : (0 : ℝ) ≤ 1 - p.x * p.x - p.y * p.y := by nlinarith
    refine ⟨?_, ?_, Real.sqrt_nonneg _⟩
    · unfold sphereFromOrthographic
      rw [if_neg (not_lt.mpr hz)]
    · simp only [Vec3.normSq]
      rw [Real.sq_sqrt hz]
      ring

/-- Witness for C6 at the screen center `(0, 0)`. -/
theorem C6_orthographic_deprojection_witness :
    (0 : ℝ) ^ 2 + (0 : ℝ) ^ 2 ≤ 1 ∧
    sphereFromOrthographic ⟨0, 0⟩ =
      some ⟨0, 0, Real.sqrt (1 - 0 * 0 - 0 * 0)⟩ :=
  ⟨by norm_num, ((C6_orthographic_deprojection ⟨0, 0⟩).2 (by norm_num)).1⟩

/-! ## C1: perspective deprojection -/

/-- C1: under PERSPECTIVE with `viewHeight > 0`, deprojection discards
exactly when the discriminant `qb² − 4·qa·qc < 0` (with
`qa = |p|² + vh²`, `qb = −2(vh² + vh)`, `qc = vh² + 2vh`); otherwise it
returns `(0,0,vh+1) + t·(p.x, p.y, −vh)` for the near root
`t = (−qb − √determinant)/(2·qa)`, which is a root of the quadratic and
never exceeds (is strictly below, for positive discriminant) the far
root, and the returned point has exact unit squared magnitude. -/
theorem C1_perspective_deprojection (vh : ℝ) (p : Vec2) (hvh : 0 < vh) :
    (sphereFromPerspective vh p = none ↔ perspDeterminant vh p < 0) ∧
    (0 ≤ perspDeterminant vh p →
      sphereFromPerspective vh p =
        some (perspRayPoint vh p (perspNearT vh p)) ∧
      perspQa vh p * perspNearT vh p ^ 2 + perspQb vh * perspNearT vh p +
        perspQc vh = 0 ∧
      perspQa vh p * perspFarT vh p ^ 2 + perspQb vh * perspFarT vh p +
        perspQc vh = 0 ∧
      perspNearT vh p ≤ perspFarT vh p ∧
      (0 < perspDeterminant vh p → perspNearT vh p < perspFarT vh p) ∧
      (perspRayPoint vh p (perspNearT vh p)).normSq = 1) := by
  have ha : 0 < perspQa vh p := by
    have := mul_self_nonneg p.x
    have := mul_self_nonneg p.y
    have := mul_pos hvh hvh
    unfold perspQa
    nlinarith
  have hdet : perspDeterminant vh p =
      perspQb vh ^ 2 - 4 * perspQa vh p * perspQc vh := by
    unfold perspDeterminant; ring
  constructor
  · constructor
    · intro hnone
      by_cases hlt : perspDeterminant vh p < 0
      · exact hlt
      · unfold sphereFromPerspective at hnone
        rw [if_neg hlt] at hnone
        exact absurd hnone (by simp)
    · intro hlt
      unfold sphereFromPerspective
      rw [if_pos hlt]
  · intro hge
    have hs : Real.sqrt (perspQb vh ^ 2 - 4 * perspQa vh p * perspQc vh) ^ 2 =
        perspQb vh ^ 2 - 4 * perspQa vh p * perspQc vh := by
      rw [Real.sq_sqrt]
      rw [← hdet]
      exact hge
    have hnear : perspNearT vh p =
        (-perspQb vh - Real.sqrt (perspQb vh ^ 2 - 4 * perspQa vh p * perspQc vh)) /
          (2 * perspQa vh p) := by
      unfold perspNearT
      rw [hdet]
    have hfar : perspFarT vh p =
        (-perspQb vh + Real.sqrt (perspQb vh ^ 2 - 4 * perspQa vh p * perspQc vh)) /
          (2 * perspQa vh p) := by
      unfold perspFarT
      rw [hdet]
    have hrootNear : perspQa vh p * perspNearT vh p ^ 2 +
        perspQb vh * perspNearT vh p + perspQc vh = 0 := by
      rw [hnear]
      exact quad_root_near _ _ _ (ne_of_gt ha) hs
    refine ⟨?_, hrootNear, ?_, ?_, ?_, ?_⟩
    · unfold sphereFromPerspective
      rw [if_neg (not_lt.mpr hge)]
    · rw [hfar]
      exact quad_root_far _ _ _ (ne_of_gt ha) hs
    · rw [hnear, hfar]
      refine (div_le_div_right (by positivity)).mpr ?_
      linarith [Real.sqrt_nonneg (perspQb vh ^ 2 - 4 * perspQa vh p * perspQc vh)]
    · intro hpos
      rw [hnear, hfar]
      refine (div_lt_div_right (by positivity)).mpr ?_
      have hspos : 0 < Real.sqrt (perspQb vh ^ 2 - 4 * perspQa vh p * perspQc vh) := by
        rw [Real.sqrt_pos, ← hdet]
        exact hpos
      linarith
    · simp only [perspRayPoint, Vec3.normSq, perspQa, perspQb, perspQc] at hrootNear ⊢
      linear_combination hrootNear

/-- Witness for C1 at `viewHeight = 1`, screen center `(0, 0)`:
the discriminant is `4 ≥ 0` and the returned point has unit magnitude. -/
theorem C1_perspective_deprojection_witness :
    (0 : ℝ) < 1 ∧ 0 ≤ perspDeterminant 1 ⟨0, 0⟩ ∧
    (perspRayPoint 1 ⟨0, 0⟩ (perspNearT 1 ⟨0, 0⟩)).normSq = 1 :=
  ⟨by norm_num,
   by norm_num [perspDeterminant, perspQa, perspQb, perspQc],
   ((C1_perspective_deprojection 1 ⟨0, 0⟩ (by norm_num)).2
     (by norm_num [perspDeterminant, perspQa, perspQb, perspQc])).2.2.2.2.2⟩

/-! ## C2: texture sampling level -/

lemma lodCode_neg_iff (aspect zoom w ih : ℝ)
    (hr : 0 < radiansPerScreenPixel aspect zoom w) (hih : 0 < ih) :
    lodCode aspect zoom w ih < 0 ↔
      radiansPerScreenPixel aspect zoom w * ih < glslPI := by
  have hpi : (0 : ℝ) < glslPI := by norm_num [glslPI]
  have hq : (0 : ℝ) < glslPI / ih := div_pos hpi hih
  have hx : 0 < radiansPerScreenPixel aspect zoom w / (glslPI / ih) :=
    div_pos hr hq
  unfold lodCode
  rw [show (0.0 : ℝ) = 0 by norm_num, sub_zero,
    Real.logb_neg_iff (by norm_num) hx, div_lt_one hq, lt_div_iff hih]

/-- C2 counterexample: at `aspect_ratio = 1`, `zoom = 1`, a 4096-pixel-wide
viewport and a 1024-pixel-tall image, the computed LOD is negative, so it
is not clamped to `[0, maxMipLevel]`. -/
theorem C2_lod_counterexample : lodCode 1 1 4096 1024 < 0 := by
  have hr : (0 : ℝ) < radiansPerScreenPixel 1 1 4096 := by
    norm_num [radiansPerScreenPixel]
  rw [lodCode_neg_iff 1 1 4096 1024 hr (by norm_num)]
  norm_num [radiansPerScreenPixel, glslPI]

/-- C2 (amended): the sampling level is
`lod = log2(radiansPerScreenPixel / radiansPerImagePixel)` with
`radiansPerImagePixel = PI / imageHeight` and `radiansPerScreenPixel`
the screen-space derivative of the continuous coordinate `screen_xy.x`
(never of the texture coordinate `u`); no clamping is applied, and the
result is negative exactly when a screen pixel subtends a smaller angle
than an image pixel. -/
theorem C2_lod_formula (aspect zoom w ih : ℝ)
    (hr : 0 < radiansPerScreenPixel aspect zoom w) (hih : 0 < ih) :
    lodCode aspect zoom w ih =
      Real.logb 2 (radiansPerScreenPixel aspect zoom w / (glslPI / ih)) ∧
    (lodCode aspect zoom w ih < 0 ↔
      radiansPerScreenPixel aspect zoom w * ih < glslPI) := by
  constructor
  · unfold lodCode
    norm_num
  · exact lodCode_neg_iff aspect zoom w ih hr hih

/-- Witness for C2 (amended) at `aspect_ratio = 1`, `zoom = 1`, a
2-pixel-wide viewport and a 2-pixel-tall image: the hypotheses hold and
there the LOD is nonnegative (the ratio exceeds one). -/
theorem C2_lod_formula_witness :
    (0 : ℝ) < radiansPerScreenPixel 1 1 2 ∧ (0 : ℝ) < 2 ∧
    (lodCode 1 1 2 2 < 0 ↔ radiansPerScreenPixel 1 1 2 * 2 < glslPI) :=
  ⟨by norm_num [radiansPerScreenPixel], by norm_num,
   (C2_lod_formula 1 1 2 2 (by norm_num [radiansPerScreenPixel])
     (by norm_num)).2⟩

/-! ## Navigation controller: `pan` case analysis -/

lemma pan_zero (x y : ℝ) (s : State)
    (h : x - s.dragX = 0 ∧ y - s.dragY = 0) : pan x y s = s := by
  unfold pan
  rw [if_pos h]

lemma pan_glitch (x y : ℝ) (s : State)
    (hne : ¬(x - s.dragX = 0 ∧ y - s.dragY = 0))
    (h : 30 < |x - s.dragX| ∨ 30 < |y - s.dragY|) :
    pan x y s = { s with dragX := x, dragY := y } := by
  unfold pan
  rw [if_neg hne]
  by_cases h2 : 30 < |x - s.dragX|
  · rw [if_pos h2]
  · rw [if_neg h2, if_pos (h.resolve_left h2)]

lemma pan_accepted (x y : ℝ) (s : State)
    (hne : ¬(x - s.dragX = 0 ∧ y - s.dragY = 0))
    (hdx : |x - s.dragX| ≤ 30) (hdy : |y - s.dragY| ≤ 30) :
    pan x y s =
      { s with
          dragX := x
          dragY := y
          centerLongitude := s.centerLongitude + (-(x - s.dragX) * dragScale s)
          centerLatitude :=
            max (min (s.centerLatitude + (y - s.dragY) * dragScale s)
              (0.5 * Real.pi)) (-(0.5 * Real.pi))
          rotation := rotationFromAngles
            (s.centerLongitude + (-(x - s.dragX) * dragScale s))
            (max (min (s.centerLatitude + (y - s.dragY) * dragScale s)
              (0.5 * Real.pi)) (-(0.5 * Real.pi))) } := by
  unfold pan
  rw [if_neg hne, if_neg (not_lt.mpr hdx), if_neg (not_lt.mpr hdy)]

/-! ## Latitude invariant helpers -/

/-- The pole clamp invariant on `centerLatitude`. -/
def LatInv (s : State) : Prop :=
  -(0.5 * Real.pi) ≤ s.centerLatitude ∧ s.centerLatitude ≤ 0.5 * Real.pi

lemma latInv_pan (x y : ℝ) (s : State) (h : LatInv s) : LatInv (pan x y s) := by
  unfold pan
  dsimp only
  split
  · exact h
  · split
    · exact h
    · split
      · exact h
      · refine ⟨le_max_right _ _, max_le (min_le_right _ _) ?_⟩
        have := Real.pi_pos
        linarith

lemma latInv_step (op : Op) (s : State) (h : LatInv s) : LatInv (step op s) := by
  cases op with
  | mousedown x y => exact h
  | mousemove x y =>
      show LatInv (if s.isDragging then pan x y s else s)
      split
      · exact latInv_pan x y s h
      · exact h
  | mouseup => exact h
  | mouseout => exact h
  | wheel d =>
      show LatInv (scrollZoom d s)
      unfold scrollZoom
      dsimp only
      split
      · exact h
      · exact h
  | winResize cw ch =>
      show LatInv (resizeCanvas cw ch s)
      unfold resizeCanvas
      dsimp only
      split
      · exact h
      · exact h
  | setProjection proj => exact h
  | setAltitude km => exact h

lemma latInv_runOps (ops : List Op) (s : State) (h : LatInv s) :
    LatInv (runOps ops s) := by
  induction ops generalizing s with
  | nil => exact h
  | cons op rest ih => exact ih (step op s) (latInv_step op s h)

/-! ## Rotation invariant helpers -/

/-- Spec-side definition, following the spec's words "a longitude
rotation about the vertical axis": the standard rotation matrix about
the y axis. -/
def specLongitudeRotation (θ : ℝ) : Matrix (Fin 3) (Fin 3) ℝ :=
  !![Real.cos θ, 0, Real.sin θ;
     0, 1, 0;
     -Real.sin θ, 0, Real.cos θ]

/-- Spec-side definition, following the spec's words "a latitude tilt"
keeping "north-up": the standard rotation matrix about the x axis. -/
def specLatitudeTilt (φ : ℝ) : Matrix (Fin 3) (Fin 3) ℝ :=
  !![1, 0, 0;
     0, Real.cos φ, -Real.sin φ;
     0, Real.sin φ, Real.cos φ]

lemma rotationFromAngles_decomp (lon lat : ℝ) :
    rotationFromAngles lon lat =
      specLatitudeTilt lat * specLongitudeRotation (-lon) := by
  unfold rotationFromAngles specLatitudeTilt specLongitudeRotation
  rw [Matrix.mul_fin_three]
  dsimp only
  ext i j
  fin_cases i <;> fin_cases j <;> simp <;> ring

lemma specLatitudeTilt_transpose (φ : ℝ) :
    (specLatitudeTilt φ)ᵀ =
      !![1, 0, 0;
         0, Real.cos φ, Real.sin φ;
         0, -Real.sin φ, Real.cos φ] := by
  unfold specLatitudeTilt
  ext i j
  fin_cases i <;> fin_cases j <;> rfl

lemma specLatitudeTilt_orthonormal (φ : ℝ) :
    (specLatitudeTilt φ)ᵀ * specLatitudeTilt φ = 1 := by
  have h : Real.sin φ ^ 2 + Real.cos φ ^ 2 = 1 := Real.sin_sq_add_cos_sq φ
  rw [specLatitudeTilt_transpose]
  unfold specLatitudeTilt
  rw [Matrix.mul_fin_three, Matrix.one_fin_three]
  ext i j
  fin_cases i <;> fin_cases j <;> simp [Matrix.vecHead, Matrix.vecTail] <;>
    first
    | ring1
    | linear_combination h
    | linear_combination -h

lemma specLongitudeRotation_transpose (θ : ℝ) :
    (specLongitudeRotation θ)ᵀ =
      !![Real.cos θ, 0, -Real.sin θ;
         0, 1, 0;
         Real.sin θ, 0, Real.cos θ] := by
  unfold specLongitudeRotation
  ext i j
  fin_cases i <;> fin_cases j <;> rfl

lemma specLongitudeRotation_orthonormal (θ : ℝ) :
    (specLongitudeRotation θ)ᵀ * specLongitudeRotation θ = 1 := by
  have h : Real.sin θ ^ 2 + Real.cos θ ^ 2 = 1 := Real.sin_sq_add_cos_sq θ
  rw [specLongitudeRotation_transpose]
  unfold specLongitudeRotation
  rw [Matrix.mul_fin_three, Matrix.one_fin_three]
  ext i j
  fin_cases i <;> fin_cases j <;> simp [Matrix.vecHead, Matrix.vecTail] <;>
    first
    | ring1
    | linear_combination h
    | linear_combination -h

lemma rotationFromAngles_orthonormal (lon lat : ℝ) :
    (rotationFromAngles lon lat)ᵀ * rotationFromAngles lon lat = 1 := by
  have hmid : (specLatitudeTilt lat)ᵀ *
      (specLatitudeTilt lat * specLongitudeRotation (-lon)) =
      specLongitudeRotation (-lon) := by
    rw [← Matrix.mul_assoc, specLatitudeTilt_orthonormal, Matrix.one_mul]
  rw [rotationFromAngles_decomp, Matrix.transpose_mul, Matrix.mul_assoc, hmid,
    specLongitudeRotation_orthonormal]

lemma rotationFromAngles_zero : rotationFromAngles 0 0 = 1 := by
  unfold rotationFromAngles
  rw [Matrix.one_fin_three]
  dsimp only
  ext i j
  fin_cases i <;> fin_cases j <;> simp

/-- The derived-rotation invariant: `rotation` always equals the matrix
recomputed from the two center angles. -/
def RotInv (s : State) : Prop :=
  s.rotation = rotationFromAngles s.centerLongitude s.centerLatitude

lemma rotInv_pan (x y : ℝ) (s : State) (h : RotInv s) : RotInv (pan x y s) := by
  unfold RotInv pan
  dsimp only
  split
  · exact h
  · split
    · exact h
    · split
      · exact h
      · rfl

lemma rotInv_step (op : Op) (s : State) (h : RotInv s) : RotInv (step op s) := by
  cases op with
  | mousedown x y => exact h
  | mousemove x y =>
      show RotInv (if s.isDragging then pan x y s else s)
      split
      · exact rotInv_pan x y s h
      · exact h
  | mouseup => exact h
  | mouseout => exact h
  | wheel d =>
      show RotInv (scrollZoom d s)
      unfold scrollZoom
      dsimp only
      split
      · exact h
      · exact h
  | winResize cw ch =>
      show RotInv (resizeCanvas cw ch s)
      unfold resizeCanvas
      dsimp only
      split
      · exact h
      · exact h
  | setProjection proj => exact h
  | setAltitude km => exact h

lemma rotInv_runOps (ops : List Op) (s : State) (h : RotInv s) :
    RotInv (runOps ops s) := by
  induction ops generalizing s with
  | nil => exact h
  | cons op rest ih => exact ih (step op s) (rotInv_step op s h)

/-! ## C3: continueDrag rejection behaviour -/

/-- C3 counterexample: from the initial state (drag anchor `(0, 0)`), a
pointer position `(31, 0)` has `dx = 31 > 30`, yet `pan` is not a
complete no-op — it moves the drag anchor to `(31, 0)`. -/
theorem C3_glitch_moves_anchor :
    (pan 31 0 (initState 300 150)).dragX = 31 ∧
    (initState 300 150).dragX = 0 ∧
    pan 31 0 (initState 300 150) ≠ initState 300 150 := by
  have hglitch : pan 31 0 (initState 300 150) =
      { initState 300 150 with dragX := 31, dragY := 0 } :=
    pan_glitch 31 0 (initState 300 150) (by norm_num [initState])
      (by norm_num [initState])
  refine ⟨by rw [hglitch], by norm_num [initState], ?_⟩
  intro hcontra
  have hproj := congrArg State.dragX hcontra
  rw [hglitch] at hproj
  norm_num [initState] at hproj

/-- C3 (amended): `continueDrag` with a zero delta is a complete no-op;
with a non-zero delta whose `|dx|` or `|dy|` exceeds 30 it leaves the
center angles, rotation and all other fields unchanged but still moves
the drag anchor to `(x, y)`. -/
theorem C3_continueDrag_reject (s : State) (x y : ℝ) :
    (x - s.dragX = 0 ∧ y - s.dragY = 0 → pan x y s = s) ∧
    (¬(x - s.dragX = 0 ∧ y - s.dragY = 0) →
      (30 < |x - s.dragX| ∨ 30 < |y - s.dragY|) →
      pan x y s = { s with dragX := x, dragY := y }) :=
  ⟨pan_zero x y s, pan_glitch x y s⟩

/-- Witness for C3 (amended): a zero-delta call and an oversized-delta
call from the initial state. -/
theorem C3_continueDrag_reject_witness :
    pan 0 0 (initState 500 500) = initState 500 500 ∧
    pan 31 5 (initState 500 500) =
      { initState 500 500 with dragX := 31, dragY := 5 } :=
  ⟨(C3_continueDrag_reject (initState 500 500) 0 0).1 (by norm_num [initState]),
   (C3_continueDrag_reject (initState 500 500) 31 5).2 (by norm_num [initState])
     (by norm_num [initState])⟩

/-! ## C4: latitude pole clamp invariant -/

/-- C4: `centerLatitude` stays in `[−π/2, π/2]` in every state reachable
from the initial state by any event sequence, and an accepted drag step
whose raw update would overshoot a pole saturates exactly at `±π/2`. -/
theorem C4_latitude_clamped :
    (∀ (ops : List Op) (w h : ℝ),
      -(0.5 * Real.pi) ≤ (runOps ops (initState w h)).centerLatitude ∧
      (runOps ops (initState w h)).centerLatitude ≤ 0.5 * Real.pi) ∧
    (∀ (s : State) (x y : ℝ),
      ¬(x - s.dragX = 0 ∧ y - s.dragY = 0) →
      |x - s.dragX| ≤ 30 → |y - s.dragY| ≤ 30 →
      ((0.5 * Real.pi < s.centerLatitude + (y - s.dragY) * dragScale s →
        (pan x y s).centerLatitude = 0.5 * Real.pi) ∧
       (s.centerLatitude + (y - s.dragY) * dragScale s < -(0.5 * Real.pi) →
        (pan x y s).centerLatitude = -(0.5 * Real.pi)))) := by
  constructor
  · intro ops w h
    refine latInv_runOps ops (initState w h) ?_
    constructor
    · show -(0.5 * Real.pi) ≤ 0
      nlinarith [Real.pi_pos]
    · show (0 : ℝ) ≤ 0.5 * Real.pi
      nlinarith [Real.pi_pos]
  · intro s x y hne hdx hdy
    rw [pan_accepted x y s hne hdx hdy]
    dsimp only
    have hbound : -(0.5 * Real.pi) ≤ 0.5 * Real.pi := by
      nlinarith [Real.pi_pos]
    constructor
    · intro hover
      rw [min_eq_right hover.le, max_eq_left hbound]
    · intro hunder
      rw [min_eq_left (by linarith), max_eq_right hunder.le]

/-- Witness for C4: on a 2×2 canvas at zoom 1 (`dragScale = 1`), a drag
of `dy = 10` from latitude 0 overshoots the north pole and lands exactly
on `π/2`. -/
theorem C4_latitude_clamped_witness :
    (pan 0 10 (initState 2 2)).centerLatitude = 0.5 * Real.pi := by
  refine (C4_latitude_clamped.2 (initState 2 2) 0 10 (by norm_num [initState])
    (by norm_num [initState]) (by norm_num [initState])).1 ?_
  have hpi := Real.pi_lt_315
  norm_num [initState, dragScale]
  nlinarith

/-! ## C5: rotation is derived and orthonormal -/

/-- C5: in every reachable state the stored rotation equals the matrix
deterministically recomputed from `(centerLongitude, centerLatitude)`;
that matrix is the composition of the latitude tilt with the longitude
rotation about the vertical axis, is always orthonormal, and at angles
`(0, 0)` coincides with the initial identity rotation. -/
theorem C5_rotation_derived :
    (∀ (ops : List Op) (w h : ℝ),
      (runOps ops (initState w h)).rotation =
        rotationFromAngles (runOps ops (initState w h)).centerLongitude
          (runOps ops (initState w h)).centerLatitude) ∧
    (∀ lon lat, rotationFromAngles lon lat =
      specLatitudeTilt lat * specLongitudeRotation (-lon)) ∧
    (∀ lon lat,
      (rotationFromAngles lon lat)ᵀ * rotationFromAngles lon lat = 1) ∧
    rotationFromAngles 0 0 = 1 :=
  ⟨fun ops w h => rotInv_runOps ops (initState w h) rotationFromAngles_zero.symm,
   rotationFromAngles_decomp,
   rotationFromAngles_orthonormal,
   rotationFromAngles_zero⟩

/-! ## C7: accepted drag update formula -/

lemma dragScale_min (s : State) (haspect : s.aspect = s.width / s.height)
    (hw : 0 < s.width) (hh : 0 < s.height) :
    dragScale s = 2 / min s.width s.height / s.zoom := by
  unfold dragScale
  by_cases hc : 1 < s.aspect
  · rw [if_pos hc]
    have hlt : s.height < s.width := by
      rw [haspect] at hc
      exact (one_lt_div hh).mp hc
    rw [min_eq_right hlt.le]
  · rw [if_neg hc]
    have hle : s.width ≤ s.height := by
      rw [haspect] at hc
      exact (div_le_one hh).mp (not_lt.mp hc)
    rw [min_eq_left hle]

/-- C7: an accepted drag step updates `centerLongitude` by
`−dx · dragScale` and `centerLatitude` by `+dy · dragScale` (then the
pole clamp), where `dragScale = 2 / min(width, height) / zoom`, and
recomputes `rotation` from the updated angles. -/
theorem C7_drag_step (s : State) (x y : ℝ)
    (hne : ¬(x - s.dragX = 0 ∧ y - s.dragY = 0))
    (hdx : |x - s.dragX| ≤ 30) (hdy : |y - s.dragY| ≤ 30)
    (haspect : s.aspect = s.width / s.height)
    (hw : 0 < s.width) (hh : 0 < s.height) :
    (pan x y s).centerLongitude =
      s.centerLongitude -
        (x - s.dragX) * (2 / min s.width s.height / s.zoom) ∧
    (pan x y s).centerLatitude =
      max (min (s.centerLatitude +
          (y - s.dragY) * (2 / min s.width s.height / s.zoom))
        (0.5 * Real.pi)) (-(0.5 * Real.pi)) ∧
    (pan x y s).rotation =
      rotationFromAngles (pan x y s).centerLongitude
        (pan x y s).centerLatitude := by
  rw [pan_accepted x y s hne hdx hdy, ← dragScale_min s haspect hw hh]
  dsimp only
  exact ⟨by ring, rfl, rfl⟩

/-- Witness for C7: the spec scenario — drag from `(100, 100)` to
`(110, 100)` at zoom 1 on a 500×500 viewport moves `centerLongitude` by
exactly `−0.04` radians and recomputes the rotation. -/
theorem C7_drag_step_witness :
    (pan 110 100
        { initState 500 500 with dragX := 100, dragY := 100 }).centerLongitude
      = -(0.04 : ℝ) ∧
    (pan 110 100
        { initState 500 500 with dragX := 100, dragY := 100 }).rotation =
      rotationFromAngles
        (pan 110 100
          { initState 500 500 with dragX := 100, dragY := 100 }).centerLongitude
        (pan 110 100
          { initState 500 500 with dragX := 100, dragY := 100 }).centerLatitude := by
  have h := C7_drag_step { initState 500 500 with dragX := 100, dragY := 100 }
    110 100 (by norm_num [initState]) (by norm_num [initState])
    (by norm_num [initState]) (by norm_num [initState])
    (by norm_num [initState]) (by norm_num [initState])
  refine ⟨?_, h.2.2⟩
  rw [h.1]
  norm_num [initState]

/-! ## C8: longitude is not wrapped -/

/-- C8 counterexample: after a resize to a 2×2 canvas and one accepted
drag of `dx = −4`, the reachable state has `centerLongitude = 4 > π`,
outside `(−π, π]`. -/
theorem C8_longitude_escapes :
    Real.pi <
      (runOps [Op.winResize 2 2, Op.mousedown 0 0, Op.mousemove (-4) 0]
        (initState 500 500)).centerLongitude := by
  have hs1 : step (Op.winResize 2 2) (initState 500 500) =
      { initState 500 500 with width := 2, height := 2, aspect := 2 / 2 } := by
    show resizeCanvas 2 2 (initState 500 500) = _
    unfold resizeCanvas
    dsimp only
    rw [if_pos]
    · ext <;> norm_num [initState, Int.floor_ofNat]
    · left
      norm_num [initState, Int.floor_ofNat]
  have h2 : runOps [Op.winResize 2 2, Op.mousedown 0 0, Op.mousemove (-4) 0]
      (initState 500 500) =
      pan (-4) 0
        { initState 500 500 with
            width := 2, height := 2, aspect := 2 / 2,
            isDragging := true, dragX := 0, dragY := 0 } := by
    show step (Op.mousemove (-4) 0)
        (step (Op.mousedown 0 0) (step (Op.winResize 2 2) (initState 500 500)))
      = _
    rw [hs1]
    rfl
  rw [h2, pan_accepted (-4) 0 _ (by norm_num [initState])
    (by norm_num [initState]) (by norm_num [initState])]
  dsimp only
  have : dragScale
      { initState 500 500 with
          width := 2, height := 2, aspect := 2 / 2,
          isDragging := true, dragX := 0, dragY := 0 } = 1 := by
    norm_num [dragScale, initState]
  rw [this]
  norm_num [initState]
  linarith [Real.pi_lt_315]

/-- C8 (amended): an accepted drag step sets `centerLongitude` to
exactly `centerLongitude − dx · dragScale`, with no wrap-around or range
normalization applied, so `centerLongitude` is not kept in `(−π, π]`. -/
theorem C8_longitude_no_wrap (s : State) (x y : ℝ)
    (hne : ¬(x - s.dragX = 0 ∧ y - s.dragY = 0))
    (hdx : |x - s.dragX| ≤ 30) (hdy : |y - s.dragY| ≤ 30) :
    (pan x y s).centerLongitude =
      s.centerLongitude - (x - s.dragX) * dragScale s := by
  rw [pan_accepted x y s hne hdx hdy]
  dsimp only
  ring

/-- Witness for C8 (amended): one accepted drag of `dx = 1` from the
initial state on a 500×500 canvas moves the longitude to `−0.004`. -/
theorem C8_longitude_no_wrap_witness :
    (pan 1 0 (initState 500 500)).centerLongitude = -(0.004 : ℝ) := by
  rw [C8_longitude_no_wrap (initState 500 500) 1 0 (by norm_num [initState])
    (by norm_num [initState]) (by norm_num [initState])]
  norm_num [initState, dragScale]

/-! ## C9: scroll zoom -/

/-- C9: a zoom event multiplies `zoom` by exactly `1.10` when the scroll
delta is positive and by `1/1.10` otherwise, changing nothing else; from
`zoom = 1`, three zoom-in events give exactly `1.331 = 1.1³`, and a
further zoom-out gives exactly `1.21`. -/
theorem C9_scroll_zoom :
    (∀ (s : State) (d : ℝ),
      scrollZoom d s =
        { s with zoom := s.zoom * (if 0 < d then 1.10 else 1.0 / 1.10) }) ∧
    (runOps [Op.wheel 1, Op.wheel 1, Op.wheel 1] (initState 500 500)).zoom
      = 1.331 ∧
    (runOps [Op.wheel 1, Op.wheel 1, Op.wheel 1, Op.wheel (-1)]
      (initState 500 500)).zoom = 1.21 := by
  have key : ∀ (s : State) (d : ℝ),
      scrollZoom d s =
        { s with zoom := s.zoom * (if 0 < d then 1.10 else 1.0 / 1.10) } := by
    intro s d
    unfold scrollZoom
    dsimp only
    by_cases hd : 0 < d
    · rw [if_pos ?side, if_pos hd]
      case side =>
        exact lt_max_iff.mpr (Or.inr (lt_min_iff.mpr ⟨one_pos, hd⟩))
    · rw [if_neg ?side, if_neg hd]
      case side =>
        intro hcon
        rcases lt_max_iff.mp hcon with hcon | hcon
        · norm_num at hcon
        · exact hd (lt_min_iff.mp hcon).2
  refine ⟨key, ?_, ?_⟩
  · show (scrollZoom 1 (scrollZoom 1 (scrollZoom 1 (initState 500 500)))).zoom
      = 1.331
    rw [key, key, key]
    norm_num [initState]
  · show (scrollZoom (-1) (scrollZoom 1 (scrollZoom 1 (scrollZoom 1
      (initState 500 500))))).zoom = 1.21
    rw [key, key, key, key]
    norm_num [initState]

/-! ## C10: projection switching -/

/-- C10: exactly the string "equirectangular" selects EQUIRECTANGULAR,
exactly "orthographic" selects ORTHOGRAPHIC, and every other string
selects PERSPECTIVE; the altitude input ends up enabled exactly in the
PERSPECTIVE case. -/
theorem C10_projection_strings (proj : String) :
    ((projectionChanged proj).1 = Projection.EQUIRECTANGULAR ↔
      proj = "equirectangular") ∧
    ((projectionChanged proj).1 = Projection.ORTHOGRAPHIC ↔
      proj = "orthographic") ∧
    ((projectionChanged proj).1 = Projection.PERSPECTIVE ↔
      (proj ≠ "equirectangular" ∧ proj ≠ "orthographic")) ∧
    ((projectionChanged proj).2 = true ↔
      (projectionChanged proj).1 = Projection.PERSPECTIVE) := by
  unfold projectionChanged
  by_cases h1 : proj = "equirectangular"
  · subst h1
    decide
  · by_cases h2 : proj = "orthographic"
    · subst h2
      decide
    · simp [h1, h2]

end

end GlobeView
